import Mathlib

/-!
Verification of the expense-tracker repository (`expense_tracker/models.py`,
`storage.py`, `manager.py`) against its natural-language specification.

The Python code is shallowly embedded as follows:
* Python `float` amounts are modelled as `ℚ` (the spec only ever speaks of
  exact decimal values; no float-rounding behaviour is claimed).
* Python strings are Lean `String`s, but the string primitives the code uses
  (`str.strip`, `str.lower`, `str.startswith`, lexicographic `<=`) are defined
  here directly on the underlying character list `String.data`, mirroring
  Python's semantics (`strip` removes leading/trailing whitespace, `lower`
  maps characters to lower case, comparison is lexicographic by code point).
* Raising an exception becomes returning `Except PyError _`, with the
  exception class preserved (`PyError`), because which class is raised
  decides whether a handler catches it: `load_expenses` catches exactly
  `ValueError` and `KeyError` per record, `_read_data` catches exactly
  `JSONDecodeError` and `FileNotFoundError`, and nothing catches
  `TypeError`, `AttributeError` or `OSError`, which therefore propagate out
  of the storage layer.
* The JSON backing file is modelled by `FileContent`: absent, present but
  unreadable (`open` raises `OSError`/`PermissionError`), present but not
  parseable as JSON, parsed to a non-array value, or parsed to an array of
  items.  An array item (`RawItem`) is a JSON object (`RawRecord`) or a
  non-object value; a record key holds a typed JSON value (`PyVal`), so
  present-but-ill-typed values (a `null` amount, a non-string category) are
  distinguished from absent keys and take the source's uncaught
  `TypeError`/`AttributeError` paths rather than the caught `KeyError` path.
* The nondeterministic defaults (`uuid`, `datetime.now()`) used by
  `from_dict` for absent `id`/`date`/`created_at` keys are supplied
  explicitly through a `Defaults` record; `load_expenses` takes a stream
  `Nat → Defaults`, one per array position.
-/

deriving instance DecidableEq for Except

namespace ExpenseTracker

/-! ### Python string primitives -/

/-- Whitespace test used by Python's `str.strip`. -/
def wsChar (c : Char) : Bool := c.isWhitespace

/-- Python `str.strip` on the character list: drop leading and trailing
whitespace. -/
def stripL (l : List Char) : List Char :=
  ((l.dropWhile wsChar).reverse.dropWhile wsChar).reverse

/-- Python `str.strip`. -/
def pyStrip (s : String) : String := ⟨stripL s.data⟩

/-- Python `str.lower`. -/
def pyLower (s : String) : String := ⟨s.data.map Char.toLower⟩

/-- Python lexicographic string `<=` (by code point), as a boolean on
character lists. -/
def chLe : List Char → List Char → Bool
  | [], _ => true
  | _ :: _, [] => false
  | a :: as, b :: bs => if a < b then true else if b < a then false else chLe as bs

/-- Python `str.startswith`. -/
def pyStarts (p s : String) : Bool := p.data.isPrefixOf s.data

/-! ### Basic facts about the string primitives -/

theorem chLe_total (a b : List Char) : chLe a b = true ∨ chLe b a = true := by
  induction a generalizing b with
  | nil => exact Or.inl rfl
  | cons x xs ih =>
    cases b with
    | nil => exact Or.inr rfl
    | cons y ys =>
      by_cases h1 : x < y
      · left; simp [chLe, h1]
      · by_cases h2 : y < x
        · right; simp [chLe, h2]
        · rcases ih ys with h | h
          · left; simp [chLe, h1, h2, h]
          · right; simp [chLe, h1, h2, h]

theorem chLe_trans {a b c : List Char} (h1 : chLe a b = true) (h2 : chLe b c = true) :
    chLe a c = true := by
  induction a generalizing b c with
  | nil => rfl
  | cons x xs ih =>
    cases b with
    | nil => simp [chLe] at h1
    | cons y ys =>
      cases c with
      | nil => simp [chLe] at h2
      | cons z zs =>
        rcases lt_trichotomy x y with hxy | hxy | hxy
        · rcases lt_trichotomy y z with hyz | hyz | hyz
          · simp [chLe, lt_trans hxy hyz]
          · subst hyz; simp [chLe, hxy]
          · exfalso; simp [chLe, hyz, lt_asymm hyz] at h2
        · subst hxy
          rcases lt_trichotomy x z with hyz | hyz | hyz
          · simp [chLe, hyz]
          · subst hyz
            simp only [chLe, lt_irrefl, if_false] at h1 h2 ⊢
            exact ih h1 h2
          · exfalso; simp [chLe, hyz, lt_asymm hyz] at h2
        · exfalso; simp [chLe, hxy, lt_asymm hxy] at h1

theorem head_dropWhile_ws (p : Char → Bool) (l : List Char) :
    ∀ x ∈ (l.dropWhile p).head?, p x = false := by
  induction l with
  | nil => simp
  | cons a as ih =>
    rw [List.dropWhile_cons]
    by_cases h : p a
    · simpa [h] using ih
    · simp [h]

theorem dropWhile_eq_self_of_head (p : Char → Bool) (l : List Char)
    (h : ∀ x ∈ l.head?, p x = false) : l.dropWhile p = l := by
  cases l with
  | nil => rfl
  | cons a as => simp_all [List.dropWhile_cons]

theorem getLast_dropWhile_ws (p : Char → Bool) (l : List Char)
    (h : l.dropWhile p ≠ []) : (l.dropWhile p).getLast? = l.getLast? := by
  obtain ⟨pre, hpre⟩ := List.dropWhile_suffix (l := l) p
  conv_rhs => rw [← hpre]
  rw [List.getLast?_append]
  cases hl : (l.dropWhile p).getLast? with
  | none => exact absurd (List.getLast?_eq_none_iff.mp hl) h
  | some x => rfl

theorem stripL_head (l : List Char) : ∀ x ∈ (stripL l).head?, wsChar x = false := by
  intro x hx
  unfold stripL at hx
  rw [List.head?_reverse] at hx
  by_cases hn : ((l.dropWhile wsChar).reverse.dropWhile wsChar) = []
  · rw [hn] at hx; simp at hx
  · rw [getLast_dropWhile_ws _ _ hn, List.getLast?_reverse] at hx
    exact head_dropWhile_ws wsChar _ x hx

theorem stripL_last (l : List Char) : ∀ x ∈ (stripL l).getLast?, wsChar x = false := by
  intro x hx
  unfold stripL at hx
  rw [List.getLast?_reverse] at hx
  exact head_dropWhile_ws wsChar _ x hx

theorem stripL_eq_self (l : List Char)
    (h1 : ∀ x ∈ l.head?, wsChar x = false)
    (h2 : ∀ x ∈ l.getLast?, wsChar x = false) : stripL l = l := by
  unfold stripL
  rw [dropWhile_eq_self_of_head _ _ h1]
  rw [dropWhile_eq_self_of_head]
  · exact l.reverse_reverse
  · intro x hx
    rw [List.head?_reverse] at hx
    exact h2 x hx

theorem stripL_idem (l : List Char) : stripL (stripL l) = stripL l :=
  stripL_eq_self _ (stripL_head l) (stripL_last l)

theorem pyStrip_idem (s : String) : pyStrip (pyStrip s) = pyStrip s :=
  congrArg String.mk (stripL_idem s.data)

theorem toNat_ofNat_valid {n : Nat} (h : n.isValidChar) : (Char.ofNat n).toNat = n := by
  rw [Char.ofNat, dif_pos h]
  rfl

theorem ws_false_of_ge {c : Char} (h : 33 ≤ c.toNat) : c.isWhitespace = false := by
  simp only [Char.isWhitespace, Bool.or_eq_false_iff, decide_eq_false_iff_not]
  refine ⟨⟨⟨fun e => ?_, fun e => ?_⟩, fun e => ?_⟩, fun e => ?_⟩ <;>
    (subst e; exact absurd h (by decide))

theorem toLower_def (c : Char) :
    Char.toLower c = if c.toNat ≥ 65 ∧ c.toNat ≤ 90 then Char.ofNat (c.toNat + 32) else c :=
  rfl

theorem ws_toLower (c : Char) : (Char.toLower c).isWhitespace = c.isWhitespace := by
  rw [toLower_def]
  by_cases h : c.toNat ≥ 65 ∧ c.toNat ≤ 90
  · have hv : (c.toNat + 32).isValidChar := Or.inl (by omega)
    have ht : (Char.ofNat (c.toNat + 32)).toNat = c.toNat + 32 := toNat_ofNat_valid hv
    rw [if_pos h, ws_false_of_ge (by rw [ht]; omega), ws_false_of_ge (by omega)]
  · rw [if_neg h]

theorem toLower_toLower (c : Char) : Char.toLower (Char.toLower c) = Char.toLower c := by
  by_cases h : c.toNat ≥ 65 ∧ c.toNat ≤ 90
  · have hv : (c.toNat + 32).isValidChar := Or.inl (by omega)
    have h1 : Char.toLower c = Char.ofNat (c.toNat + 32) := by
      rw [toLower_def, if_pos h]
    rw [h1, toLower_def, if_neg]
    rw [toNat_ofNat_valid hv]
    omega
  · have h1 : Char.toLower c = c := by
      rw [toLower_def, if_neg h]
    rw [h1, h1]

theorem wsChar_toLower (c : Char) : wsChar (Char.toLower c) = wsChar c :=
  ws_toLower c

theorem stripL_map_toLower (l : List Char) :
    stripL (l.map Char.toLower) = (stripL l).map Char.toLower := by
  have hws : (fun c => wsChar (Char.toLower c)) = wsChar := funext wsChar_toLower
  unfold stripL
  rw [List.dropWhile_map]
  show ((((l.dropWhile (fun c => wsChar (Char.toLower c))).map
    Char.toLower).reverse).dropWhile wsChar).reverse = _
  rw [hws, ← List.map_reverse, List.dropWhile_map]
  show (((l.dropWhile wsChar).reverse.dropWhile
    (fun c => wsChar (Char.toLower c))).map Char.toLower).reverse = _
  rw [hws, ← List.map_reverse]

/-- Python's `s.lower().strip()` and `s.strip().lower()` agree (lower-casing
never creates or destroys whitespace). -/
theorem pyStrip_pyLower_comm (s : String) :
    pyStrip (pyLower s) = pyLower (pyStrip s) :=
  congrArg String.mk (stripL_map_toLower s.data)

theorem map_toLower_idem (l : List Char) :
    (l.map Char.toLower).map Char.toLower = l.map Char.toLower := by
  rw [List.map_map]
  exact List.map_congr_left fun c _ => toLower_toLower c

theorem pyLower_idem (s : String) : pyLower (pyLower s) = pyLower s :=
  congrArg String.mk (map_toLower_idem s.data)

/-- The category normalisation `c.lower().strip()` is idempotent. -/
theorem normalize_idem (s : String) :
    pyStrip (pyLower (pyStrip (pyLower s))) = pyStrip (pyLower s) := by
  rw [pyStrip_pyLower_comm (pyStrip (pyLower s)), pyStrip_idem,
    pyStrip_pyLower_comm s, pyLower_idem, ← pyStrip_pyLower_comm]

/-! ### Python values and exceptions -/

/-- A JSON-decoded Python value sitting under a record key: a number (both
JSON integers and floats are rationals in this model), a boolean, a string,
`None`, or a composite value (array/object) whose contents never matter to
the tracker's code paths. -/
inductive PyVal where
  | vnum : ℚ → PyVal
  | vbool : Bool → PyVal
  | vstr : String → PyVal
  | vnull : PyVal
  | vcomposite : PyVal
deriving DecidableEq

/-- The exception classes the embedded code can raise.  The class matters:
`load_expenses` catches exactly `(ValueError, KeyError)` and `_read_data`
catches exactly `(JSONDecodeError, FileNotFoundError)`, so `TypeError`,
`AttributeError` and `OSError` always propagate to the caller. -/
inductive PyError where
  | valueError : String → PyError
  | keyError : String → PyError
  | typeError : String → PyError
  | attributeError : String → PyError
  | osError : String → PyError
deriving DecidableEq

/-- Whether the `except (ValueError, KeyError)` clause of `load_expenses`
catches this exception. -/
def PyError.caught : PyError → Bool
  | .valueError _ => true
  | .keyError _ => true
  | _ => false

/-- Numeric value of a decimal digit. -/
def digVal (c : Char) : Nat := c.toNat - 48

/-- Value of a digit string. -/
def natOfDigits (l : List Char) : Nat := l.foldl (fun n c => n * 10 + digVal c) 0

/-- Mantissa of a Python float literal: `digits`, `digits.`, `digits.digits`
or `.digits`. -/
def parseMantissa (l : List Char) : Option ℚ :=
  let ip := l.takeWhile Char.isDigit
  match l.dropWhile Char.isDigit with
  | [] => if ip = [] then none else some (natOfDigits ip)
  | '.' :: rest =>
    let fp := rest.takeWhile Char.isDigit
    if rest.dropWhile Char.isDigit ≠ [] then none
    else if ip = [] ∧ fp = [] then none
    else some ((natOfDigits ip : ℚ) + (natOfDigits fp : ℚ) / (10 : ℚ) ^ fp.length)
  | _ => none

/-- Exponent of a Python float literal: an optional sign and digits. -/
def parseExp (l : List Char) : Option Int :=
  let (sgn, l2) : Int × List Char :=
    match l with
    | '-' :: r => (-1, r)
    | '+' :: r => (1, r)
    | _ => (1, l)
  if l2 ≠ [] ∧ l2.all Char.isDigit then some (sgn * natOfDigits l2) else none

/-- Python `float(string)` for the decimal grammar
`[ws][sign](digits[.digits] | .digits)[(e|E)[sign]digits][ws]`.  Exotic
spellings Python also accepts (`inf`, `nan`, underscore separators, Unicode
digits) lie outside a rational-number model and parse as failures here; no
claim or example exercises them. -/
def floatParse (s : String) : Option ℚ :=
  let l := stripL s.data
  let (sgn, l2) : ℚ × List Char :=
    match l with
    | '-' :: r => (-1, r)
    | '+' :: r => (1, r)
    | _ => (1, l)
  let mant := l2.takeWhile fun c => ¬ (c = 'e' ∨ c = 'E')
  match l2.dropWhile (fun c => ¬ (c = 'e' ∨ c = 'E')) with
  | [] => (parseMantissa mant).map (sgn * ·)
  | _ :: erest =>
    match parseMantissa mant, parseExp erest with
    | some m, some ex => some (sgn * m * (10 : ℚ) ^ ex)
    | _, _ => none

/-- Python `float(...)` applied to a JSON-decoded value: numbers pass
through, booleans coerce to `0`/`1`, strings are parsed (`ValueError` when
they do not parse), and `None` or composite values raise `TypeError`. -/
def pyFloat : PyVal → Except PyError ℚ
  | .vnum q => .ok q
  | .vbool b => .ok (if b then 1 else 0)
  | .vstr s =>
    match floatParse s with
    | some q => .ok q
    | none => .error (.valueError "could not convert string to float")
  | .vnull => .error (.typeError "float() argument must not be None")
  | .vcomposite => .error (.typeError "float() argument must be a string or a real number")

/-- Extraction of a string-typed value: `__post_init__` calls
`.lower()`/`.strip()` on the category and description, which raises
`AttributeError` on any non-string value. -/
def pyStr : PyVal → Except PyError String
  | .vstr s => .ok s
  | _ => .error (.attributeError "value has no attribute lower or strip")

/-! ### The Expense record (`models.py`) -/

/-- An `Expense` as built by the dataclass after `__post_init__` ran. -/
structure Expense where
  amount : ℚ
  category : String
  description : String
  date : String
  id : String
  created_at : String
deriving DecidableEq

/-- Model of `Expense.__post_init__` on string-typed inputs (the direct
construction path used by `ExpenseManager.add_expense`): fails on
`amount <= 0`, normalises `category` with `.lower().strip()`, fails on a
description that is empty after `.strip()`, and stores the stripped
description.  Raising `ValueError` becomes returning `Except.error`. -/
def mkExpense (amount : ℚ) (category description date id created_at : String) :
    Except PyError Expense :=
  if amount ≤ 0 then .error (.valueError "Amount must be positive")
  else if pyStrip description = "" then .error (.valueError "Description cannot be empty")
  else .ok { amount := amount, category := pyStrip (pyLower category),
             description := pyStrip description, date := date, id := id,
             created_at := created_at }

/-- Model of `Expense.__post_init__` when category and description are
arbitrary JSON-decoded values (the `from_dict` path): the amount check runs
first, then `category.lower()` and `description.strip()` raise
`AttributeError` on non-strings, then the blank-description check. -/
def mkExpenseV (amount : ℚ) (category description : PyVal)
    (date id created_at : String) : Except PyError Expense :=
  if amount ≤ 0 then .error (.valueError "Amount must be positive")
  else
    match pyStr category with
    | .error err => .error err
    | .ok c =>
      match pyStr description with
      | .error err => .error err
      | .ok ds =>
        if pyStrip ds = "" then .error (.valueError "Description cannot be empty")
        else .ok { amount := amount, category := pyStrip (pyLower c),
                   description := pyStrip ds, date := date, id := id,
                   created_at := created_at }

theorem mkExpenseV_str (a : ℚ) (c ds dt i cr : String) :
    mkExpenseV a (.vstr c) (.vstr ds) dt i cr = mkExpense a c ds dt i cr := rfl

/-- A JSON object from the backing file's array.  `amount`, `category` and
`description` hold arbitrary JSON values when present, so ill-typed values
are representable and take the uncaught error paths.  The `id`, `date` and
`created_at` keys are passed through `data.get(...)` unvalidated by the
source (no code path raises on them during load); the model covers their
string forms, the only ones the tracker itself ever writes. -/
structure RawRecord where
  id : Option String
  amount : Option PyVal
  category : Option PyVal
  description : Option PyVal
  date : Option String
  created_at : Option String
deriving DecidableEq

/-- An element of the decoded JSON array: an object, or any non-object value
(string, number, boolean, null, array), on which `data.get("id", ...)`
raises `AttributeError`. -/
inductive RawItem where
  | obj : RawRecord → RawItem
  | nonObj : PyVal → RawItem
deriving DecidableEq

/-- Values used by `from_dict` for missing `id` / `date` / `created_at` keys
(a fresh uuid slice, the current date, the current timestamp). -/
structure Defaults where
  freshId : String
  today : String
  now : String
deriving DecidableEq

/-- Model of `Expense.from_dict`, including its exception behaviour and
Python's left-to-right argument evaluation: `data.get("id", ...)` raises
`AttributeError` on a non-object, `float(data["amount"])` raises `KeyError`
when the key is absent and `TypeError`/`ValueError` on unusable values,
`data["category"]` / `data["description"]` raise `KeyError` when absent, and
the validating constructor runs last. -/
def from_dict (d : Defaults) (item : RawItem) : Except PyError Expense :=
  match item with
  | .nonObj _ => .error (.attributeError "value has no attribute get")
  | .obj data =>
    match data.amount with
    | none => .error (.keyError "amount")
    | some av =>
      match pyFloat av with
      | .error err => .error err
      | .ok a =>
        match data.category with
        | none => .error (.keyError "category")
        | some cv =>
          match data.description with
          | none => .error (.keyError "description")
          | some dv =>
            mkExpenseV a cv dv (data.date.getD d.today) (data.id.getD d.freshId)
              (data.created_at.getD d.now)

/-- Model of `Expense.to_dict` (`dataclasses.asdict`): every key is present
and carries the stored value's type. -/
def Expense.to_dict (e : Expense) : RawRecord :=
  { id := some e.id, amount := some (.vnum e.amount),
    category := some (.vstr e.category), description := some (.vstr e.description),
    date := some e.date, created_at := some e.created_at }

/-- The data-model invariants the spec states for a stored `Expense`:
positive amount, category already in normalised (lower-cased, stripped)
form, description already stripped and non-empty. -/
def Expense.Valid (e : Expense) : Prop :=
  0 < e.amount ∧ pyStrip (pyLower e.category) = e.category ∧
    pyStrip e.description = e.description ∧ e.description ≠ ""

instance : DecidablePred Expense.Valid := fun e => by
  unfold Expense.Valid; infer_instance

/-! ### Storage (`storage.py`) -/

/-- The observable state of the backing file: missing
(`FileNotFoundError`, caught), present but unreadable (`open` raises
`OSError`/`PermissionError`, which `_read_data` does not catch), unparsable
(`JSONDecodeError`, caught), parsed but not a JSON array, or a JSON array of
items. -/
inductive FileContent where
  | missing : FileContent
  | unreadable : FileContent
  | unparsable : FileContent
  | nonArray : FileContent
  | array : List RawItem → FileContent
deriving DecidableEq

/-- Model of `JSONStorage._read_data`: missing/unparsable content and
non-array JSON all collapse to the empty list because the `try/except`
catches exactly `JSONDecodeError` and `FileNotFoundError`; an unreadable
file raises out of the function. -/
def read_data : FileContent → Except PyError (List RawItem)
  | .missing => .ok []
  | .unreadable => .error (.osError "Permission denied")
  | .unparsable => .ok []
  | .nonArray => .ok []
  | .array items => .ok items

/-- Model of `JSONStorage._write_data`. -/
def write_data (items : List RawItem) : FileContent := .array items

/-- The items of an array-state file (used to state what a rewrite left on
disk). -/
def arrayItems : FileContent → List RawItem
  | .array items => items
  | _ => []

/-- The `id` value of a stored array item, when it is an object with a
string `id`. -/
def itemId : RawItem → Option String
  | .obj data => data.id
  | .nonObj _ => none

/-- The per-item loop of `load_expenses`, deserialising item `i` with the
`i`-th batch of generated defaults: a record failing with `ValueError` or
`KeyError` is skipped with a warning, any other exception propagates and
aborts the whole load. -/
def loadFrom (gen : Nat → Defaults) : Nat → List RawItem → Except PyError (List Expense)
  | _, [] => .ok []
  | i, r :: rs =>
    match from_dict (gen i) r with
    | .ok e =>
      match loadFrom gen (i + 1) rs with
      | .ok es => .ok (e :: es)
      | .error err => .error err
    | .error err => if err.caught then loadFrom gen (i + 1) rs else .error err

/-- Model of `JSONStorage.load_expenses`. -/
def load_expenses (gen : Nat → Defaults) (f : FileContent) :
    Except PyError (List Expense) :=
  match read_data f with
  | .ok items => loadFrom gen 0 items
  | .error err => .error err

/-- Model of `JSONStorage.save_expenses`. -/
def save_expenses (es : List Expense) : FileContent :=
  write_data (es.map (fun e => RawItem.obj e.to_dict))

/-- Model of `JSONStorage.add_expense`: load all (exceptions propagate),
append, save all. -/
def storageAdd (gen : Nat → Defaults) (e : Expense) (f : FileContent) :
    Except PyError FileContent :=
  match load_expenses gen f with
  | .ok es => .ok (save_expenses (es ++ [e]))
  | .error err => .error err

/-- Model of `JSONStorage.delete_expense`: load all (exceptions propagate),
drop matching ids, and write back only when something was dropped; returns
whether a record was removed together with the resulting file state. -/
def delete_expense (gen : Nat → Defaults) (eid : String) (f : FileContent) :
    Except PyError (Bool × FileContent) :=
  match load_expenses gen f with
  | .error err => .error err
  | .ok es =>
    if (es.filter (fun e => e.id ≠ eid)).length < es.length then
      .ok (true, save_expenses (es.filter (fun e => e.id ≠ eid)))
    else .ok (false, f)

/-- Model of `ExpenseManager.delete_expense`, which just delegates to
storage. -/
def managerDelete (gen : Nat → Defaults) (eid : String) (f : FileContent) :
    Except PyError (Bool × FileContent) :=
  delete_expense gen eid f

/-! ### Manager (`manager.py`)

The manager operates on the in-memory snapshot obtained from
`storage.load_expenses()`; its pure filter/aggregate pipelines are modelled
directly on that `List Expense`. -/

/-- Sort key for `expenses.sort(key=..., reverse=True)`: `a` may precede `b`
when `a`'s date is lexicographically at least `b`'s. -/
def dateDesc (a b : Expense) : Prop := chLe b.date.data a.date.data = true

instance : DecidableRel dateDesc := fun _ _ => Bool.decEq _ _

instance : IsTotal Expense dateDesc :=
  ⟨fun a b => chLe_total b.date.data a.date.data⟩

instance : IsTrans Expense dateDesc :=
  ⟨fun _ _ _ h1 h2 => chLe_trans h2 h1⟩

/-- Ascending lexicographic order on strings (pandas sorts group keys). -/
def strAsc (a b : String) : Prop := chLe a.data b.data = true

instance : DecidableRel strAsc := fun _ _ => Bool.decEq _ _

instance : IsTotal String strAsc := ⟨fun a b => chLe_total a.data b.data⟩

instance : IsTrans String strAsc := ⟨fun _ _ _ h1 h2 => chLe_trans h1 h2⟩

/-- The `if category:` stage of `list_expenses`.  Python's truthiness test
skips the filter both for `None` and for the empty string; a non-empty
argument is normalised with `.lower().strip()` and compared for equality. -/
def catFilter (category : Option String) (es : List Expense) : List Expense :=
  match category with
  | none => es
  | some c =>
    if c = "" then es
    else es.filter (fun e => e.category = pyStrip (pyLower c))

/-- The `if start_date:` stage: keep expenses with `e.date >= start_date`. -/
def sdFilter (start_date : Option String) (es : List Expense) : List Expense :=
  match start_date with
  | none => es
  | some sd =>
    if sd = "" then es else es.filter (fun e => chLe sd.data e.date.data)

/-- The `if end_date:` stage: keep expenses with `e.date <= end_date`. -/
def edFilter (end_date : Option String) (es : List Expense) : List Expense :=
  match end_date with
  | none => es
  | some ed =>
    if ed = "" then es else es.filter (fun e => chLe e.date.data ed.data)

/-- The `if limit and limit > 0:` stage: a missing, zero or negative limit is
a no-op, a positive one truncates. -/
def applyLimit (limit : Option Int) (es : List Expense) : List Expense :=
  match limit with
  | some n => if 0 < n then es.take n.toNat else es
  | none => es

/-- Model of `ExpenseManager.list_expenses`: category filter, date-range filters,
stable sort by date descending, then the limit. -/
def list_expenses (stored : List Expense) (category start_date end_date : Option String)
    (limit : Option Int) : List Expense :=
  applyLimit limit
    ((edFilter end_date (sdFilter start_date (catFilter category stored))).insertionSort
      dateDesc)

/-- One row of the `get_summary` result frame. -/
structure SummaryRow where
  category : String
  total : ℚ
  count : Nat
  average : ℚ
deriving DecidableEq

/-- Rounding to two decimal places, as applied by `.round(2)` on the
aggregated columns. -/
def round2 (q : ℚ) : ℚ := (round (q * 100) : ℤ) / 100

/-- Sum of the amounts of a list of expenses. -/
def sumAmounts (es : List Expense) : ℚ := (es.map Expense.amount).sum

/-- Sort key for `sort_values("total", ascending=False)` on the raw totals. -/
def totalDesc (a b : SummaryRow) : Prop := b.total ≤ a.total

instance : DecidableRel totalDesc := fun x y => inferInstanceAs (Decidable (y.total ≤ x.total))

instance : IsTotal SummaryRow totalDesc := ⟨fun x y => le_total y.total x.total⟩

instance : IsTrans SummaryRow totalDesc := ⟨fun _ _ _ h1 h2 => le_trans h2 h1⟩

/-- The unrounded aggregate row for category `c` over data frame `df`:
`total=("amount","sum")`, `count=("amount","count")`, `average=("amount","mean")`. -/
def rawRow (df : List Expense) (c : String) : SummaryRow :=
  { category := c,
    total := sumAmounts (df.filter (fun e => e.category = c)),
    count := (df.filter (fun e => e.category = c)).length,
    average := sumAmounts (df.filter (fun e => e.category = c)) /
      ((df.filter (fun e => e.category = c)).length : ℚ) }

/-- Rounding step applied to each row after sorting. -/
def roundRow (r : SummaryRow) : SummaryRow :=
  { r with total := round2 r.total, average := round2 r.average }

/-- The `if month:` stage of `get_summary`: keep rows whose date starts with
the month prefix; `None` and the empty string are no-ops. -/
def monthFilter (month : Option String) (stored : List Expense) : List Expense :=
  match month with
  | none => stored
  | some m =>
    if m = "" then stored else stored.filter (fun e => pyStarts m e.date)

/-- The groupby/aggregate/sort/round pipeline of `get_summary` on a
non-empty frame: pandas `groupby("category")` keeps the group keys sorted
ascending, `sort_values("total", ascending=False)` reorders by the raw
totals, and `.round(2)` is applied to the total and average columns last. -/
def summaryRows (df : List Expense) : List SummaryRow :=
  ((((df.map Expense.category).dedup).insertionSort strAsc).map
    (rawRow df)).insertionSort totalDesc |>.map roundRow

/-- Model of `ExpenseManager.get_summary`: empty snapshot, or empty frame after the
month filter, gives the empty result frame; otherwise the groupby pipeline. -/
def get_summary (stored : List Expense) (month : Option String) : List SummaryRow :=
  if stored = [] then []
  else if monthFilter month stored = [] then []
  else summaryRows (monthFilter month stored)

/-- Model of `ExpenseManager.add_expense`: builds the record (`date or today`,
generated id and timestamp) and persists it on success. -/
def managerAdd (gen : Nat → Defaults) (d : Defaults) (amount : ℚ)
    (category description : String) (date : Option String) (f : FileContent) :
    Except PyError (Expense × FileContent) :=
  let dt := match date with
    | none => d.today
    | some s => if s = "" then d.today else s
  match mkExpense amount category description dt d.freshId d.now with
  | .ok e =>
    match storageAdd gen e f with
    | .ok f2 => .ok (e, f2)
    | .error err => .error err
  | .error err => .error err

/-! ### Concrete fixtures used by the spec's examples -/

/-- A fixed stream of generated defaults for examples. -/
def gen0 : Nat → Defaults := fun _ => ⟨"gid", "2024-06-01", "ts"⟩

def d0 : Defaults := ⟨"gid", "2024-06-01", "ts"⟩

def eFood : Expense :=
  { amount := 3, category := "food", description := "lunch",
    date := "2024-01-15", id := "a1", created_at := "t1" }

def eDec : Expense :=
  { amount := 4, category := "food", description := "dinner",
    date := "2023-12-31", id := "a2", created_at := "t2" }

def eFeb : Expense :=
  { amount := 5, category := "food", description := "brunch",
    date := "2024-02-01", id := "a3", created_at := "t3" }

/-- A valid stored record. -/
def goodRec : RawRecord :=
  { id := some "g1", amount := some (.vnum 10), category := some (.vstr "food"),
    description := some (.vstr "pizza"), date := some "2024-01-10",
    created_at := some "t4" }

/-- An invalid stored record (negative amount): deserialization raises
`ValueError`, which `load_expenses` catches and turns into a skip. -/
def badRec : RawRecord :=
  { id := some "g2", amount := some (.vnum (-5)), category := some (.vstr "food"),
    description := some (.vstr "bad"), date := some "2024-01-11",
    created_at := some "t5" }

/-- A record whose `amount` key is JSON `null`: `float(None)` raises
`TypeError`, which nothing catches. -/
def nullRec : RawRecord :=
  { id := some "g3", amount := some .vnull, category := some (.vstr "food"),
    description := some (.vstr "oops"), date := some "2024-01-12",
    created_at := some "t6" }

def goodExpense : Expense :=
  { amount := 10, category := "food", description := "pizza",
    date := "2024-01-10", id := "g1", created_at := "t4" }

/-! ### Claim C1: construction-time validation -/

theorem mkExpense_isOk (a : ℚ) (c ds dt i cr : String) :
    (mkExpense a c ds dt i cr).isOk = true ↔ ¬ (a ≤ 0 ∨ pyStrip ds = "") := by
  unfold mkExpense
  split_ifs with h1 h2
  · simp [Except.isOk, Except.toBool, h1]
  · simp [Except.isOk, Except.toBool, h1, h2]
  · simp [Except.isOk, Except.toBool, h1, h2]

/-- C1: construction (directly, or through `Manager.add_expense`, or through
`Expense.from_dict` with all keys present) fails exactly when `amount <= 0`
or the description strips to the empty string; in particular amounts `0` and
`-5` fail, amount `0.01` succeeds, a whitespace-only description fails, and
`"  lunch  "` succeeds with the description stored as `"lunch"`. -/
theorem claim_C1_validation :
    (∀ (a : ℚ) (c ds dt i cr : String),
      (mkExpense a c ds dt i cr).isOk = true ↔ ¬ (a ≤ 0 ∨ pyStrip ds = "")) ∧
    (∀ (a : ℚ) (c ds dt i0 cr : String) (d : Defaults),
      (from_dict d (.obj ⟨some i0, some (.vnum a), some (.vstr c), some (.vstr ds),
          some dt, some cr⟩)).isOk = true ↔
        ¬ (a ≤ 0 ∨ pyStrip ds = "")) ∧
    (∀ (a : ℚ) (c ds dt : String) (d : Defaults) (gen : Nat → Defaults) (f : FileContent),
      (managerAdd gen d a c ds (some dt) f).isOk =
        ((mkExpense a c ds dt d.freshId d.now).isOk && (load_expenses gen f).isOk)) ∧
    (∀ c ds dt i cr : String,
      mkExpense 0 c ds dt i cr = .error (.valueError "Amount must be positive")) ∧
    (∀ c ds dt i cr : String,
      mkExpense (-5) c ds dt i cr = .error (.valueError "Amount must be positive")) ∧
    (mkExpense (1 / 100) "coffee" "espresso" "2024-01-02" "b1" "t6").isOk = true ∧
    (∀ (a : ℚ) (c dt i cr : String), 0 < a →
      mkExpense a c "   " dt i cr = .error (.valueError "Description cannot be empty")) ∧
    mkExpense 3 "Food" "  lunch  " "2024-01-15" "a1" "t1" = .ok eFood := by
  refine ⟨mkExpense_isOk, ?_, ?_, ?_, ?_, ?_, ?_, by decide⟩
  · intro a c ds dt i0 cr d
    exact mkExpense_isOk a c ds dt i0 cr
  · intro a c ds dt d gen f
    have hirr : ∀ dt1 dt2 : String, (mkExpense a c ds dt1 d.freshId d.now).isOk =
        (mkExpense a c ds dt2 d.freshId d.now).isOk := by
      intro dt1 dt2
      unfold mkExpense
      split_ifs <;> rfl
    have hd : (managerAdd gen d a c ds (some dt) f).isOk =
        ((mkExpense a c ds (if dt = "" then d.today else dt) d.freshId d.now).isOk &&
          (load_expenses gen f).isOk) := by
      simp only [managerAdd]
      cases h : mkExpense a c ds (if dt = "" then d.today else dt) d.freshId d.now with
      | error err => simp [Except.isOk, Except.toBool]
      | ok e =>
        simp only [Except.isOk, Except.toBool, Bool.true_and]
        unfold storageAdd
        cases h2 : load_expenses gen f with
        | ok es => rfl
        | error err => rfl
    rw [hd]
    by_cases hdt : dt = ""
    · rw [if_pos hdt, hirr d.today dt]
    · rw [if_neg hdt]
  · intro c ds dt i cr
    unfold mkExpense
    rw [if_pos le_rfl]
  · intro c ds dt i cr
    unfold mkExpense
    rw [if_pos (by norm_num)]
  · rw [mkExpense_isOk]
    push_neg
    exact ⟨by norm_num, by decide⟩
  · intro a c dt i cr h
    unfold mkExpense
    rw [if_neg (not_le.mpr h), if_pos (by decide)]

/-- Witness for C1 at concrete inputs: a positive amount together with a
whitespace-only description is rejected with the description error. -/
theorem claim_C1_validation_witness :
    0 < (3 : ℚ) ∧
      mkExpense 3 "food" "   " "2024-01-01" "w1" "t" =
        .error (.valueError "Description cannot be empty") :=
  ⟨by decide, claim_C1_validation.2.2.2.2.2.2.1 3 "food" "2024-01-01" "w1" "t" (by decide)⟩

/-! ### Claim C2: loading, skipping and exception propagation -/

/-- Whether the loop body of `load_expenses` survives this deserialization
outcome: success, or an exception its `except (ValueError, KeyError)`
catches. -/
def fdCaught (r : Except PyError Expense) : Bool :=
  match r with
  | .ok _ => true
  | .error err => err.caught

theorem loadFrom_isOk (gen : Nat → Defaults) :
    ∀ (l : List RawItem) (i : Nat),
      (loadFrom gen i l).isOk = true ↔
        ∀ j : Fin l.length, fdCaught (from_dict (gen (i + j.val)) (l.get j)) = true := by
  intro l
  induction l with
  | nil =>
    intro i
    constructor
    · intro _ j
      exact j.elim0
    · intro _
      rfl
  | cons r rs ih =>
    intro i
    simp only [List.length_cons, Fin.forall_fin_succ, Fin.val_zero, Nat.add_zero,
      List.get_cons_zero, Fin.val_succ, List.get_cons_succ', Nat.add_succ]
    have ihs := ih (i + 1)
    simp only [Nat.succ_add] at ihs
    cases hfd : from_dict (gen i) r with
    | ok e =>
      simp only [loadFrom, hfd]
      have h0 : fdCaught (Except.ok e : Except PyError Expense) = true := rfl
      cases hrec : loadFrom gen (i + 1) rs with
      | ok es =>
        have htail := (ihs).mp (by rw [hrec]; rfl)
        simp only [Except.isOk, Except.toBool]
        exact ⟨fun _ => ⟨h0, htail⟩, fun _ => trivial⟩
      | error err =>
        constructor
        · intro hcontra
          exact absurd hcontra (by simp [Except.isOk, Except.toBool])
        · rintro ⟨-, h2⟩
          exfalso
          have hok := ihs.mpr h2
          rw [hrec] at hok
          exact absurd hok (by simp [Except.isOk, Except.toBool])
    | error err =>
      simp only [loadFrom, hfd]
      by_cases hc : err.caught
      · rw [if_pos hc]
        have h0 : fdCaught (Except.error err : Except PyError Expense) = true := by
          show err.caught = true
          exact hc
        rw [ihs]
        exact ⟨fun h2 => ⟨h0, h2⟩, fun h => h.2⟩
      · rw [if_neg hc]
        constructor
        · intro hcontra
          exact absurd hcontra (by simp [Except.isOk, Except.toBool])
        · rintro ⟨h1, -⟩
          exfalso
          exact hc h1

theorem loadFrom_ok_mem (gen : Nat → Defaults) (e : Expense) :
    ∀ (l : List RawItem) (i : Nat) (es : List Expense), loadFrom gen i l = .ok es →
      (e ∈ es ↔ ∃ j : Fin l.length, from_dict (gen (i + j.val)) (l.get j) = .ok e) := by
  intro l
  induction l with
  | nil =>
    intro i es h
    rw [show loadFrom gen i [] = .ok [] from rfl, Except.ok.injEq] at h
    subst h
    simp only [List.not_mem_nil, false_iff, not_exists]
    exact fun j => j.elim0
  | cons r rs ih =>
    intro i es h
    simp only [List.length_cons, Fin.exists_fin_succ, Fin.val_zero, Nat.add_zero,
      List.get_cons_zero, Fin.val_succ, List.get_cons_succ', Nat.add_succ]
    cases hfd : from_dict (gen i) r with
    | ok e0 =>
      simp only [loadFrom, hfd] at h
      cases hrec : loadFrom gen (i + 1) rs with
      | ok es2 =>
        rw [hrec, Except.ok.injEq] at h
        subst h
        have ihs := ih (i + 1) es2 hrec
        simp only [Nat.succ_add] at ihs
        rw [List.mem_cons, ihs]
        simp only [Except.ok.injEq]
        constructor
        · rintro (rfl | h2)
          · exact Or.inl rfl
          · exact Or.inr h2
        · rintro (rfl | h2)
          · exact Or.inl rfl
          · exact Or.inr h2
      | error err =>
        rw [hrec] at h
        exact absurd h (by simp)
    | error err =>
      simp only [loadFrom, hfd] at h
      by_cases hc : err.caught
      · rw [if_pos hc] at h
        have ihs := ih (i + 1) es h
        simp only [Nat.succ_add] at ihs
        rw [ihs]
        simp
      · rw [if_neg hc] at h
        exact absurd h (by simp)

/-- C2 counterexample: `load_expenses` can raise.  A present-but-unreadable
file hits `open()` outside the caught exception classes (`_read_data`
catches only `JSONDecodeError` and `FileNotFoundError`), and a record whose
`amount` is JSON `null` makes `float(None)` raise an uncaught `TypeError`,
aborting the whole load instead of being skipped — the valid record is lost
rather than returned. -/
theorem claim_C2_counterexample :
    load_expenses gen0 FileContent.unreadable =
      .error (.osError "Permission denied") ∧
    load_expenses gen0 (.array [.obj goodRec, .obj nullRec]) =
      .error (.typeError "float() argument must not be None") :=
  ⟨rfl, by decide⟩

/-- C2 (amended: `load_expenses` is exception-safe only for the exception
classes the source actually catches): an absent, unparsable or non-array
backing file yields the empty collection; a record whose deserialization
raises `ValueError` or `KeyError` — missing `amount`/`category`/`description`
keys, an unparsable amount string, a non-positive amount, a blank
description — is skipped with a warning and the remaining valid records are
returned, so one valid record plus one such invalid record loads as exactly
the valid record; but a present-yet-unreadable file (`OSError`) and a record
whose deserialization raises `TypeError`/`AttributeError` (`null` or
composite amount, non-string category or description, non-object array
element) propagate the exception out of `load_expenses`. -/
theorem claim_C2_tolerant_load :
    (∀ gen : Nat → Defaults, load_expenses gen .missing = .ok [] ∧
      load_expenses gen .unparsable = .ok [] ∧ load_expenses gen .nonArray = .ok []) ∧
    (∀ gen : Nat → Defaults,
      load_expenses gen .unreadable = .error (.osError "Permission denied")) ∧
    (∀ (gen : Nat → Defaults) (items : List RawItem),
      (load_expenses gen (.array items)).isOk = true ↔
        ∀ j : Fin items.length, fdCaught (from_dict (gen j.val) (items.get j)) = true) ∧
    (∀ (gen : Nat → Defaults) (items : List RawItem) (es : List Expense) (e : Expense),
      load_expenses gen (.array items) = .ok es →
        (e ∈ es ↔ ∃ j : Fin items.length, from_dict (gen j.val) (items.get j) = .ok e)) ∧
    load_expenses gen0 (.array [.obj goodRec, .obj badRec]) = .ok [goodExpense] := by
  refine ⟨fun gen => ⟨rfl, rfl, rfl⟩, fun gen => rfl, ?_, ?_, by decide⟩
  · intro gen items
    simpa using loadFrom_isOk gen items 0
  · intro gen items es e h
    simpa using loadFrom_ok_mem gen e items 0 es h

/-- Witness for C2 at concrete inputs: the valid-plus-invalid array loads
successfully and its membership is characterised by per-index
deserialization. -/
theorem claim_C2_tolerant_load_witness :
    load_expenses gen0 (.array [.obj goodRec, .obj badRec]) = .ok [goodExpense] ∧
      (goodExpense ∈ [goodExpense] ↔
        ∃ j : Fin 2, from_dict (gen0 j.val)
          ([RawItem.obj goodRec, RawItem.obj badRec].get j) = .ok goodExpense) :=
  ⟨by decide,
    claim_C2_tolerant_load.2.2.2.1 gen0 [.obj goodRec, .obj badRec] [goodExpense]
      goodExpense (by decide)⟩

/-! ### Claim C3: list_expenses filtering, sorting and limiting -/

/-- Per-record category condition, following the spec's words with the
correction that an empty-string filter argument is treated as absent. -/
def catGuard (category : Option String) (e : Expense) : Bool :=
  match category with
  | none => true
  | some c => decide (c = "") || decide (e.category = pyStrip (pyLower c))

/-- Per-record start-date condition (inclusive, lexicographic). -/
def sdGuard (start_date : Option String) (e : Expense) : Bool :=
  match start_date with
  | none => true
  | some sd => decide (sd = "") || chLe sd.data e.date.data

/-- Per-record end-date condition (inclusive, lexicographic). -/
def edGuard (end_date : Option String) (e : Expense) : Bool :=
  match end_date with
  | none => true
  | some ed => decide (ed = "") || chLe e.date.data ed.data

/-- The record-selection predicate claimed for `list_expenses`: category
equality against the normalised request and the inclusive date range, where
an absent (or, after amendment, empty-string) filter always passes. -/
def matchesFilters (category start_date end_date : Option String) (e : Expense) : Bool :=
  catGuard category e && sdGuard start_date e && edGuard end_date e

theorem catFilter_eq (category : Option String) (es : List Expense) :
    catFilter category es = es.filter (catGuard category) := by
  cases category with
  | none => exact (List.filter_true es).symm
  | some c =>
    by_cases h : c = ""
    · rw [catFilter, if_pos h]
      have : catGuard (some c) = fun _ => true := by
        funext e
        simp [catGuard, h]
      rw [this]
      exact (List.filter_true es).symm
    · rw [catFilter, if_neg h]
      refine List.filter_congr fun e _ => ?_
      simp [catGuard, h]

theorem sdFilter_eq (start_date : Option String) (es : List Expense) :
    sdFilter start_date es = es.filter (sdGuard start_date) := by
  cases start_date with
  | none => exact (List.filter_true es).symm
  | some sd =>
    by_cases h : sd = ""
    · rw [sdFilter, if_pos h]
      have : sdGuard (some sd) = fun _ => true := by
        funext e
        simp [sdGuard, h]
      rw [this]
      exact (List.filter_true es).symm
    · rw [sdFilter, if_neg h]
      refine List.filter_congr fun e _ => ?_
      simp [sdGuard, h]

theorem edFilter_eq (end_date : Option String) (es : List Expense) :
    edFilter end_date es = es.filter (edGuard end_date) := by
  cases end_date with
  | none => exact (List.filter_true es).symm
  | some ed =>
    by_cases h : ed = ""
    · rw [edFilter, if_pos h]
      have : edGuard (some ed) = fun _ => true := by
        funext e
        simp [edGuard, h]
      rw [this]
      exact (List.filter_true es).symm
    · rw [edFilter, if_neg h]
      refine List.filter_congr fun e _ => ?_
      simp [edGuard, h]

theorem filters_eq (stored : List Expense) (c sd ed : Option String) :
    edFilter ed (sdFilter sd (catFilter c stored)) =
      stored.filter (matchesFilters c sd ed) := by
  rw [catFilter_eq, sdFilter_eq, edFilter_eq, List.filter_filter, List.filter_filter]
  refine List.filter_congr fun e _ => ?_
  simp [matchesFilters, Bool.and_comm, Bool.and_left_comm]

theorem list_expenses_no_limit (stored : List Expense) (c sd ed : Option String) :
    list_expenses stored c sd ed none =
      (stored.filter (matchesFilters c sd ed)).insertionSort dateDesc := by
  unfold list_expenses applyLimit
  rw [filters_eq]

theorem list_expenses_some_limit (stored : List Expense) (c sd ed : Option String)
    (n : Int) :
    list_expenses stored c sd ed (some n) =
      if 0 < n then (list_expenses stored c sd ed none).take n.toNat
      else list_expenses stored c sd ed none :=
  rfl

/-- C3 counterexample: with the filter `category = some ""` the claim as
stated requires every returned record's category to equal
`lower(strip(""))` `= ""`, but the code skips the category filter entirely
for an empty string (Python truthiness), returning `eFood` whose category
is `"food"`. -/
theorem claim_C3_counterexample :
    list_expenses [eFood] (some "") none none none = [eFood] ∧
      eFood.category ≠ pyStrip (pyLower "") := by
  refine ⟨by decide, by decide⟩

/-- C3 (amended: a `some ""` category/start/end filter is skipped, exactly
like `none`): `list_expenses` returns exactly the stored records matching
the category filter (against the lower-cased, stripped request) and the
inclusive lexicographic date range, sorted by date descending, truncated to
the first `limit` records for a positive limit and unlimited otherwise; the
spec's date-range example holds. -/
theorem claim_C3_list_pipeline :
    (∀ (stored : List Expense) (c sd ed : Option String) (e : Expense),
      e ∈ list_expenses stored c sd ed none ↔
        e ∈ stored ∧ matchesFilters c sd ed e = true) ∧
    (∀ (stored : List Expense) (c sd ed : Option String),
      (list_expenses stored c sd ed none).Perm
        (stored.filter (matchesFilters c sd ed))) ∧
    (∀ (stored : List Expense) (c sd ed : Option String) (lim : Option Int),
      List.Sorted dateDesc (list_expenses stored c sd ed lim)) ∧
    (∀ (stored : List Expense) (c sd ed : Option String) (n : Int), 0 < n →
      list_expenses stored c sd ed (some n) =
        (list_expenses stored c sd ed none).take n.toNat) ∧
    (∀ (stored : List Expense) (c sd ed : Option String) (n : Int), n ≤ 0 →
      list_expenses stored c sd ed (some n) = list_expenses stored c sd ed none) ∧
    list_expenses [eDec, eFood, eFeb] none (some "2024-01-01") (some "2024-01-31") none
      = [eFood] := by
  have hsorted : ∀ (stored : List Expense) (c sd ed : Option String),
      List.Sorted dateDesc (list_expenses stored c sd ed none) := by
    intro stored c sd ed
    rw [list_expenses_no_limit]
    exact List.sorted_insertionSort dateDesc _
  refine ⟨?_, ?_, ?_, ?_, ?_, by decide⟩
  · intro stored c sd ed e
    rw [list_expenses_no_limit]
    simp [List.mem_filter]
  · intro stored c sd ed
    rw [list_expenses_no_limit]
    exact List.perm_insertionSort dateDesc _
  · intro stored c sd ed lim
    cases lim with
    | none => exact hsorted stored c sd ed
    | some n =>
      rw [list_expenses_some_limit]
      split_ifs
      · exact List.Pairwise.sublist (List.take_sublist _ _) (hsorted stored c sd ed)
      · exact hsorted stored c sd ed
  · intro stored c sd ed n hn
    rw [list_expenses_some_limit, if_pos hn]
  · intro stored c sd ed n hn
    rw [list_expenses_some_limit, if_neg (not_lt.mpr hn)]

/-- Witness for C3 at concrete inputs: a positive limit of 1 truncates the
three-record listing to its most recent record. -/
theorem claim_C3_list_pipeline_witness :
    0 < (1 : Int) ∧
      list_expenses [eDec, eFood, eFeb] none none none (some 1) =
        (list_expenses [eDec, eFood, eFeb] none none none none).take (1 : Int).toNat :=
  ⟨by decide, claim_C3_list_pipeline.2.2.2.1 [eDec, eFood, eFeb] none none none 1 (by decide)⟩

/-! ### Claim C4: get_summary grouping, aggregation, sorting -/

theorem round2_mono {a b : ℚ} (h : a ≤ b) : round2 a ≤ round2 b := by
  unfold round2
  have h1 : round (a * 100) ≤ round (b * 100) := by
    rw [round_eq, round_eq]
    exact Int.floor_le_floor (by linarith)
  have h2 : ((round (a * 100) : ℤ) : ℚ) ≤ ((round (b * 100) : ℤ) : ℚ) := Int.cast_le.mpr h1
  exact (div_le_div_iff_of_pos_right (by norm_num)).mpr h2

theorem monthFilter_none (stored : List Expense) : monthFilter none stored = stored := rfl

theorem monthFilter_some (stored : List Expense) (m : String) (hm : m ≠ "") :
    monthFilter (some m) stored = stored.filter (fun e => pyStarts m e.date) := by
  show (if m = "" then stored else stored.filter (fun e => pyStarts m e.date)) = _
  rw [if_neg hm]

theorem monthFilter_nil (m : Option String) : monthFilter m [] = [] := by
  cases m with
  | none => rfl
  | some s =>
    show (if s = "" then ([] : List Expense) else List.filter (fun e => pyStarts s e.date) []) = []
    split_ifs <;> rfl

theorem get_summary_none_eq (stored : List Expense) (hs : stored ≠ []) :
    get_summary stored none = summaryRows stored := by
  unfold get_summary
  rw [monthFilter_none, if_neg hs, if_neg hs]

theorem summaryRows_mem {df : List Expense} {r : SummaryRow} (h : r ∈ summaryRows df) :
    ∃ c ∈ (df.map Expense.category).dedup, r = roundRow (rawRow df c) := by
  unfold summaryRows at h
  rw [List.mem_map] at h
  obtain ⟨r', hr', rfl⟩ := h
  rw [(List.perm_insertionSort totalDesc _).mem_iff, List.mem_map] at hr'
  obtain ⟨c, hc, rfl⟩ := hr'
  rw [(List.perm_insertionSort strAsc _).mem_iff] at hc
  exact ⟨c, hc, rfl⟩

theorem summaryRows_categories (df : List Expense) :
    ((summaryRows df).map SummaryRow.category).Perm ((df.map Expense.category).dedup) := by
  unfold summaryRows
  rw [List.map_map]
  have h1 : SummaryRow.category ∘ roundRow = SummaryRow.category := funext fun r => rfl
  rw [h1]
  refine ((List.perm_insertionSort totalDesc _).map SummaryRow.category).trans ?_
  rw [List.map_map]
  have h2 : SummaryRow.category ∘ rawRow df = id := funext fun c => rfl
  rw [h2, List.map_id]
  exact List.perm_insertionSort strAsc _

theorem summaryRows_sorted (df : List Expense) :
    List.Sorted totalDesc (summaryRows df) := by
  unfold summaryRows
  refine List.Pairwise.map roundRow (fun a b hab => ?_)
    (List.sorted_insertionSort totalDesc _)
  exact round2_mono hab

def f10 : Expense :=
  { amount := 10, category := "food", description := "a",
    date := "2024-03-01", id := "s1", created_at := "t" }

def f20 : Expense :=
  { amount := 20, category := "food", description := "b",
    date := "2024-03-02", id := "s2", created_at := "t" }

def f30 : Expense :=
  { amount := 30, category := "food", description := "c",
    date := "2024-03-03", id := "s3", created_at := "t" }

def t5 : Expense :=
  { amount := 5, category := "transport", description := "d",
    date := "2024-03-04", id := "s4", created_at := "t" }

def exampleFour : List Expense := [f10, f20, f30, t5]

def rowFood : SummaryRow := ⟨"food", 60, 3, 20⟩

def rowTrans : SummaryRow := ⟨"transport", 5, 1, 5⟩

theorem rawRow_food : rawRow exampleFour "food" = ⟨"food", 60, 3, 20⟩ := by
  unfold rawRow
  rw [show exampleFour.filter (fun e => e.category = "food") = [f10, f20, f30] from by decide]
  rw [SummaryRow.mk.injEq]
  refine ⟨rfl, ?_, rfl, ?_⟩ <;> norm_num [sumAmounts, f10, f20, f30]

theorem rawRow_trans : rawRow exampleFour "transport" = ⟨"transport", 5, 1, 5⟩ := by
  unfold rawRow
  rw [show exampleFour.filter (fun e => e.category = "transport") = [t5] from by decide]
  rw [SummaryRow.mk.injEq]
  refine ⟨rfl, ?_, rfl, ?_⟩ <;> norm_num [sumAmounts, t5]

theorem summary_example :
    get_summary exampleFour none = [rowFood, rowTrans] := by
  rw [get_summary_none_eq exampleFour (by decide)]
  unfold summaryRows
  rw [show ((exampleFour.map Expense.category).dedup).insertionSort strAsc =
      ["food", "transport"] from by decide]
  rw [List.map_cons, List.map_cons, List.map_nil, rawRow_food, rawRow_trans]
  have hsort : List.insertionSort totalDesc
      [(⟨"food", 60, 3, 20⟩ : SummaryRow), ⟨"transport", 5, 1, 5⟩] =
      [(⟨"food", 60, 3, 20⟩ : SummaryRow), ⟨"transport", 5, 1, 5⟩] := by
    show List.orderedInsert totalDesc _ (List.orderedInsert totalDesc _ []) = _
    rw [List.orderedInsert_nil, List.orderedInsert_of_le]
    show totalDesc _ _
    unfold totalDesc
    norm_num
  rw [hsort, List.map_cons, List.map_cons, List.map_nil]
  have hr1 : roundRow ⟨"food", 60, 3, 20⟩ = rowFood := by
    show SummaryRow.mk "food" (round2 60) 3 (round2 20) = _
    unfold rowFood
    rw [SummaryRow.mk.injEq]
    refine ⟨rfl, ?_, rfl, ?_⟩ <;> norm_num [round2, round_eq]
  have hr2 : roundRow ⟨"transport", 5, 1, 5⟩ = rowTrans := by
    show SummaryRow.mk "transport" (round2 5) 1 (round2 5) = _
    unfold rowTrans
    rw [SummaryRow.mk.injEq]
    refine ⟨rfl, ?_, rfl, ?_⟩ <;> norm_num [round2, round_eq]
  rw [hr1, hr2]

/-- C4: `get_summary` restricts to the `YYYY-MM` prefix when a month is
given (an empty month string is a no-op, like `None`), groups the remaining
records by category, reports per-category total/count/mean with total and
average rounded to two decimals, orders the groups by total descending,
yields the empty frame when nothing matches, and produces the spec's
`food`/`transport` example exactly. -/
theorem claim_C4_summary :
    (∀ (stored : List Expense) (m : String), m ≠ "" →
      get_summary stored (some m) =
        get_summary (stored.filter (fun e => pyStarts m e.date)) none) ∧
    (∀ stored : List Expense, get_summary stored (some "") = get_summary stored none) ∧
    (∀ (stored : List Expense) (m : Option String) (r : SummaryRow),
      r ∈ get_summary stored m →
        0 < ((monthFilter m stored).filter (fun e => e.category = r.category)).length ∧
        r.count = ((monthFilter m stored).filter (fun e => e.category = r.category)).length ∧
        r.total = round2 (sumAmounts
          ((monthFilter m stored).filter (fun e => e.category = r.category))) ∧
        r.average = round2 (sumAmounts
            ((monthFilter m stored).filter (fun e => e.category = r.category)) /
          (((monthFilter m stored).filter (fun e => e.category = r.category)).length : ℚ))) ∧
    (∀ (stored : List Expense) (m : Option String),
      ((get_summary stored m).map SummaryRow.category).Perm
        (((monthFilter m stored).map Expense.category).dedup)) ∧
    (∀ (stored : List Expense) (m : Option String),
      List.Sorted totalDesc (get_summary stored m)) ∧
    (∀ m : Option String, get_summary [] m = []) ∧
    (∀ (stored : List Expense) (m : String), m ≠ "" →
      stored.filter (fun e => pyStarts m e.date) = [] →
        get_summary stored (some m) = []) ∧
    get_summary exampleFour none = [rowFood, rowTrans] := by
  have hmain : ∀ (stored : List Expense) (m : Option String),
      (monthFilter m stored = [] ∧ get_summary stored m = []) ∨
        (monthFilter m stored ≠ [] ∧
          get_summary stored m = summaryRows (monthFilter m stored)) := by
    intro stored m
    unfold get_summary
    split_ifs with h1 h2
    · refine Or.inl ⟨?_, rfl⟩
      rw [h1]
      exact monthFilter_nil m
    · exact Or.inl ⟨h2, rfl⟩
    · exact Or.inr ⟨h2, rfl⟩
  have hsome : ∀ (stored : List Expense) (m : String), m ≠ "" →
      get_summary stored (some m) =
        get_summary (stored.filter (fun e => pyStarts m e.date)) none := by
    intro stored m hm
    unfold get_summary
    rw [monthFilter_some stored m hm, monthFilter_none]
    by_cases hs : stored = []
    · subst hs
      rw [if_pos rfl, List.filter_nil, if_pos rfl]
    · rw [if_neg hs]
      by_cases hf : stored.filter (fun e => pyStarts m e.date) = []
      · rw [if_pos hf, if_pos hf]
      · rw [if_neg hf, if_neg hf]
  refine ⟨hsome, ?_, ?_, ?_, ?_, ?_, ?_, summary_example⟩
  · intro stored
    rfl
  · intro stored m r hr
    rcases hmain stored m with ⟨hmf, h⟩ | ⟨hne, heq⟩
    · rw [h] at hr
      exact absurd hr (List.not_mem_nil r)
    · rw [heq] at hr
      obtain ⟨c, hc, rfl⟩ := summaryRows_mem hr
      have hcat : (roundRow (rawRow (monthFilter m stored) c)).category = c := rfl
      rw [hcat]
      obtain ⟨e, he, hec⟩ := List.mem_map.mp (List.mem_dedup.mp hc)
      refine ⟨?_, rfl, rfl, rfl⟩
      have hef : e ∈ (monthFilter m stored).filter (fun x => x.category = c) :=
        List.mem_filter.mpr ⟨he, by simp [hec]⟩
      exact List.length_pos_of_mem hef
  · intro stored m
    rcases hmain stored m with ⟨hmf, h⟩ | ⟨hne, heq⟩
    · rw [h, hmf]
      exact List.Perm.refl _
    · rw [heq]
      exact summaryRows_categories _
  · intro stored m
    rcases hmain stored m with ⟨hmf, h⟩ | ⟨_, heq⟩
    · rw [h]
      exact List.sorted_nil
    · rw [heq]
      exact summaryRows_sorted _
  · intro m
    rfl
  · intro stored m hm hf
    rw [hsome stored m hm, hf]
    rfl

/-- Witness for C4 at concrete inputs: the `food` row of the four-expense
example satisfies the per-category aggregation equations. -/
theorem claim_C4_summary_witness :
    rowFood ∈ get_summary exampleFour none ∧
      rowFood.total = round2 (sumAmounts
        ((monthFilter none exampleFour).filter (fun e => e.category = rowFood.category))) := by
  have hmem : rowFood ∈ get_summary exampleFour none :=
    summary_example.symm ▸ List.mem_cons_self rowFood [rowTrans]
  exact ⟨hmem, (claim_C4_summary.2.2.1 exampleFour none rowFood hmem).2.2.1⟩

/-! ### Claim C5: serialization round-trip -/

/-- C5: serialising a valid `Expense` with `to_dict` and deserialising the
result with `from_dict` reproduces the record in all six fields. -/
theorem claim_C5_roundtrip (e : Expense) (d : Defaults) (hv : e.Valid) :
    from_dict d (.obj e.to_dict) = .ok e := by
  obtain ⟨h1, h2, h3, h4⟩ := hv
  show mkExpense e.amount e.category e.description e.date e.id e.created_at = .ok e
  unfold mkExpense
  rw [if_neg (not_le.mpr h1), h3, if_neg h4, h2]

/-- Witness for C5 at a concrete record. -/
theorem claim_C5_roundtrip_witness :
    eFood.Valid ∧ from_dict d0 (.obj eFood.to_dict) = .ok eFood :=
  ⟨by decide, claim_C5_roundtrip eFood d0 (by decide)⟩

/-! ### Claim C6: category normalisation -/

theorem mkExpense_ok_category {a : ℚ} {c ds dt i cr : String} {e : Expense}
    (h : mkExpense a c ds dt i cr = .ok e) : e.category = pyStrip (pyLower c) := by
  unfold mkExpense at h
  split_ifs at h
  rw [Except.ok.injEq] at h
  subst h
  rfl

theorem mkExpenseV_ok_category {a : ℚ} {cv dv : PyVal} {dt i cr : String} {e : Expense}
    (h : mkExpenseV a cv dv dt i cr = .ok e) :
    ∃ c, cv = .vstr c ∧ e.category = pyStrip (pyLower c) := by
  unfold mkExpenseV at h
  by_cases h1 : a ≤ 0
  · rw [if_pos h1] at h
    exact absurd h (by simp)
  · rw [if_neg h1] at h
    cases hcv : pyStr cv with
    | error err =>
      simp only [hcv] at h
      exact absurd h (by simp)
    | ok c =>
      simp only [hcv] at h
      have hcv2 : cv = .vstr c := by
        cases cv with
        | vstr s =>
          have h0 : (Except.ok s : Except PyError String) = .ok c := hcv
          rw [Except.ok.inj h0]
        | vnum q => exact absurd hcv (by simp [pyStr])
        | vbool b => exact absurd hcv (by simp [pyStr])
        | vnull => exact absurd hcv (by simp [pyStr])
        | vcomposite => exact absurd hcv (by simp [pyStr])
      cases hdv : pyStr dv with
      | error err =>
        simp only [hdv] at h
        exact absurd h (by simp)
      | ok ds =>
        simp only [hdv] at h
        split_ifs at h
        rw [Except.ok.injEq] at h
        subst h
        exact ⟨c, hcv2, rfl⟩

theorem from_dict_ok_parts {d : Defaults} {rec : RawRecord} {e : Expense}
    (h : from_dict d (.obj rec) = .ok e) :
    ∃ (av : PyVal) (a : ℚ) (cv dv : PyVal),
      rec.amount = some av ∧ pyFloat av = .ok a ∧ rec.category = some cv ∧
        rec.description = some dv ∧
        mkExpenseV a cv dv (rec.date.getD d.today) (rec.id.getD d.freshId)
          (rec.created_at.getD d.now) = .ok e := by
  rcases rec with ⟨rid, ramt, rcat, rdesc, rdate, rcr⟩
  cases ramt with
  | none => exact absurd h (by simp [from_dict])
  | some av =>
    simp only [from_dict] at h
    cases hfl : pyFloat av with
    | error err =>
      simp only [hfl] at h
      exact absurd h (by simp)
    | ok a =>
      simp only [hfl] at h
      cases rcat with
      | none => exact absurd h (by simp)
      | some cv =>
        cases rdesc with
        | none => exact absurd h (by simp)
        | some dv => exact ⟨av, a, cv, dv, rfl, hfl, rfl, rfl, h⟩

/-- C6: every successfully constructed record (directly or via `from_dict`,
hence also every record returned by a successful `load_expenses`) carries
the category in `lower`/`strip`-normalised form, so categories `"Food"` and
`" food "` are indistinguishable after construction. -/
theorem claim_C6_category_normalised :
    (∀ (a : ℚ) (c ds dt i cr : String) (e : Expense),
      mkExpense a c ds dt i cr = .ok e →
        e.category = pyStrip (pyLower c) ∧ e.category = pyLower (pyStrip c)) ∧
    (∀ (d : Defaults) (rec : RawRecord) (e : Expense) (c : String),
      from_dict d (.obj rec) = .ok e → rec.category = some (.vstr c) →
        e.category = pyStrip (pyLower c)) ∧
    (∀ (gen : Nat → Defaults) (f : FileContent) (es : List Expense) (e : Expense),
      load_expenses gen f = .ok es → e ∈ es →
        pyStrip (pyLower e.category) = e.category) ∧
    (∀ (a : ℚ) (ds dt i cr : String),
      mkExpense a "Food" ds dt i cr = mkExpense a " food " ds dt i cr) := by
  have hnorm : ∀ (d : Defaults) (rec : RawRecord) (e : Expense),
      from_dict d (.obj rec) = .ok e →
        ∃ c, rec.category = some (.vstr c) ∧ e.category = pyStrip (pyLower c) := by
    intro d rec e h
    obtain ⟨av, a, cv, dv, ha, hfl, hcat, hds, hmk⟩ := from_dict_ok_parts h
    obtain ⟨c, rfl, hc⟩ := mkExpenseV_ok_category hmk
    exact ⟨c, hcat, hc⟩
  refine ⟨?_, ?_, ?_, ?_⟩
  · intro a c ds dt i cr e h
    refine ⟨mkExpense_ok_category h, ?_⟩
    rw [mkExpense_ok_category h]
    exact pyStrip_pyLower_comm c
  · intro d rec e c h hc
    obtain ⟨c2, hc2, he⟩ := hnorm d rec e h
    rw [hc] at hc2
    obtain rfl : c = c2 := by
      have := Option.some.inj hc2
      exact PyVal.vstr.inj this
    exact he
  · intro gen f es e hload he
    cases hr : read_data f with
    | error err =>
      rw [show load_expenses gen f = (match read_data f with
          | .ok items => loadFrom gen 0 items
          | .error err => .error err) from rfl, hr] at hload
      exact absurd hload (by simp)
    | ok items =>
      rw [show load_expenses gen f = (match read_data f with
          | .ok items => loadFrom gen 0 items
          | .error err => .error err) from rfl, hr] at hload
      rw [loadFrom_ok_mem gen e items 0 es hload] at he
      obtain ⟨j, hj⟩ := he
      cases hitem : items.get j with
      | nonObj v =>
        rw [hitem] at hj
        exact absurd hj (by simp [from_dict])
      | obj rec =>
        rw [hitem] at hj
        obtain ⟨c, -, hc⟩ := hnorm _ rec e hj
        rw [hc]
        exact normalize_idem c
  · intro a ds dt i cr
    unfold mkExpense
    rw [show pyStrip (pyLower "Food") = pyStrip (pyLower " food ") from by decide]

/-- Witness for C6 at concrete inputs. -/
theorem claim_C6_category_normalised_witness :
    mkExpense 3 "Food" "  lunch  " "2024-01-15" "a1" "t1" = .ok eFood ∧
      eFood.category = pyStrip (pyLower "Food") ∧
      eFood.category = pyLower (pyStrip "Food") :=
  ⟨by decide,
    (claim_C6_category_normalised.1 3 "Food" "  lunch  " "2024-01-15" "a1" "t1" eFood
      (by decide)).1,
    (claim_C6_category_normalised.1 3 "Food" "  lunch  " "2024-01-15" "a1" "t1" eFood
      (by decide)).2⟩

/-! ### Claim C7: deleting a non-existent id is a pure no-op -/

/-- C7: when the snapshot loads and no loaded record carries the requested
id, `delete_expense` reports `false` and leaves the backing file
byte-for-byte unchanged (no write happens, so the stored record count is
trivially unchanged); the manager-level delete is the same operation. -/
theorem claim_C7_delete_missing :
    (∀ (gen : Nat → Defaults) (eid : String) (f : FileContent) (es : List Expense),
      load_expenses gen f = .ok es → eid ∉ es.map Expense.id →
        delete_expense gen eid f = .ok (false, f)) ∧
    (∀ (gen : Nat → Defaults) (eid : String) (f : FileContent),
      managerDelete gen eid f = delete_expense gen eid f) := by
  refine ⟨?_, fun _ _ _ => rfl⟩
  intro gen eid f es hload h
  have hfil : es.filter (fun e => e.id ≠ eid) = es := by
    rw [List.filter_eq_self]
    intro e he
    have : e.id ≠ eid := fun hc => h (hc ▸ List.mem_map_of_mem Expense.id he)
    simpa using this
  unfold delete_expense
  simp only [hload]
  rw [hfil, if_neg (lt_irrefl _)]

/-- Witness for C7 at concrete inputs: the id `"zz"` is absent. -/
theorem claim_C7_delete_missing_witness :
    load_expenses gen0 (FileContent.array [.obj goodRec]) = .ok [goodExpense] ∧
      "zz" ∉ [goodExpense].map Expense.id ∧
      delete_expense gen0 "zz" (FileContent.array [.obj goodRec]) =
        .ok (false, FileContent.array [.obj goodRec]) :=
  ⟨by decide, by decide,
    claim_C7_delete_missing.1 gen0 "zz" (FileContent.array [.obj goodRec]) [goodExpense]
      (by decide) (by decide)⟩

/-! ### Claim C8: category emptiness is not validated -/

/-- C8 counterexample: `__post_init__` validates only the amount and the
description, so a whitespace-only category is accepted and stored as the
empty string — construction does produce a record with an empty category. -/
theorem claim_C8_counterexample :
    mkExpense 1 "   " "snack" "2024-01-03" "c1" "t7" =
      .ok { amount := 1, category := "", description := "snack",
            date := "2024-01-03", id := "c1", created_at := "t7" } := by
  decide

theorem pyLower_eq_empty_iff (s : String) : pyLower s = "" ↔ s = "" := by
  rcases s with ⟨d⟩
  show String.mk (d.map Char.toLower) = String.mk [] ↔ String.mk d = String.mk []
  constructor
  · intro h
    have h2 : d.map Char.toLower = [] := congrArg String.data h
    rw [List.map_eq_nil_iff.mp h2]
  · intro h
    have h2 : d = [] := congrArg String.data h
    rw [h2]
    rfl

/-- C8 (amended: the code does not enforce a non-empty category): a
successfully constructed record stores an empty category exactly when the
supplied category strips to the empty string; emptiness is never rejected. -/
theorem claim_C8_category_not_validated :
    ∀ (a : ℚ) (c ds dt i cr : String) (e : Expense),
      mkExpense a c ds dt i cr = .ok e → (e.category = "" ↔ pyStrip c = "") := by
  intro a c ds dt i cr e h
  rw [mkExpense_ok_category h, pyStrip_pyLower_comm, pyLower_eq_empty_iff]

/-- Witness for C8 at a concrete input: category `"   "` strips to empty and
is stored as the empty string. -/
theorem claim_C8_category_not_validated_witness :
    mkExpense 1 "   " "snack" "2024-01-03" "c1" "t7" =
        .ok { amount := 1, category := "", description := "snack",
              date := "2024-01-03", id := "c1", created_at := "t7" } ∧
      (("" : String) = "" ↔ pyStrip "   " = "") :=
  ⟨by decide,
    claim_C8_category_not_validated 1 "   " "snack" "2024-01-03" "c1" "t7"
      { amount := 1, category := "", description := "snack",
        date := "2024-01-03", id := "c1", created_at := "t7" } (by decide)⟩

/-! ### Claim C9: delete removes every record with the matching id -/

theorem length_filter_lt_of_mem {l : List Expense} {x : Expense} {eid : String}
    (hx : x ∈ l) (hid : x.id = eid) :
    (l.filter (fun e => e.id ≠ eid)).length < l.length := by
  induction l with
  | nil => cases hx
  | cons a as ih =>
    rw [List.filter_cons]
    rcases List.mem_cons.mp hx with rfl | hmem
    · rw [if_neg (by simpa using hid)]
      exact Nat.lt_succ_of_le (List.length_filter_le _ _)
    · by_cases hpa : a.id ≠ eid
      · rw [if_pos (by simpa using hpa)]
        exact Nat.succ_lt_succ (ih hmem)
      · rw [if_neg (by simpa using hpa)]
        exact Nat.lt_succ_of_le (List.length_filter_le _ _)

/-- Two valid stored records sharing the id `"dup"`. -/
def dupRec1 : RawRecord :=
  { id := some "dup", amount := some (.vnum 7), category := some (.vstr "food"),
    description := some (.vstr "one"), date := some "2024-01-20",
    created_at := some "t8" }

def dupRec2 : RawRecord :=
  { id := some "dup", amount := some (.vnum 9), category := some (.vstr "food"),
    description := some (.vstr "two"), date := some "2024-01-21",
    created_at := some "t9" }

def dupE1 : Expense :=
  { amount := 7, category := "food", description := "one",
    date := "2024-01-20", id := "dup", created_at := "t8" }

def dupE2 : Expense :=
  { amount := 9, category := "food", description := "two",
    date := "2024-01-21", id := "dup", created_at := "t9" }

/-- C9: when the snapshot loads and at least one loaded record carries the
requested id (possibly several do), `delete_expense` reports `true` and
writes back exactly the records whose id differs, so no record with that id
survives in the file. -/
theorem claim_C9_delete_matches_all :
    ∀ (gen : Nat → Defaults) (eid : String) (f : FileContent) (es : List Expense),
      load_expenses gen f = .ok es → eid ∈ es.map Expense.id →
        delete_expense gen eid f =
          .ok (true, save_expenses (es.filter (fun e => e.id ≠ eid))) ∧
        ∀ r ∈ arrayItems (save_expenses (es.filter (fun e => e.id ≠ eid))),
          itemId r ≠ some eid := by
  intro gen eid f es hload h
  obtain ⟨x, hx, hxid⟩ := List.mem_map.mp h
  have hlt := length_filter_lt_of_mem hx hxid
  have heq : delete_expense gen eid f =
      .ok (true, save_expenses (es.filter (fun e => e.id ≠ eid))) := by
    unfold delete_expense
    simp only [hload]
    rw [if_pos hlt]
  refine ⟨heq, ?_⟩
  intro r hr
  obtain ⟨e, he, rfl⟩ := List.mem_map.mp hr
  have hne : e.id ≠ eid := by simpa using List.of_mem_filter he
  intro hco
  exact hne (Option.some.inj hco)

/-- Witness for C9 at concrete inputs: two stored records share the id
`"dup"`; a single delete removes both. -/
theorem claim_C9_delete_matches_all_witness :
    load_expenses gen0 (FileContent.array [.obj dupRec1, .obj dupRec2]) =
        .ok [dupE1, dupE2] ∧
      "dup" ∈ [dupE1, dupE2].map Expense.id ∧
      delete_expense gen0 "dup" (FileContent.array [.obj dupRec1, .obj dupRec2]) =
        .ok (true, save_expenses ([dupE1, dupE2].filter (fun e => e.id ≠ "dup"))) :=
  ⟨by decide, by decide,
    (claim_C9_delete_matches_all gen0 "dup"
      (FileContent.array [.obj dupRec1, .obj dupRec2]) [dupE1, dupE2]
      (by decide) (by decide)).1⟩

/-! ### Claim C10: a successful delete rewrites the file from the validated
snapshot, silently dropping raw entries that had failed deserialization -/

theorem mkExpenseV_ok_props {a : ℚ} {cv dv : PyVal} {dt i cr : String} {e : Expense}
    (h : mkExpenseV a cv dv dt i cr = .ok e) :
    0 < e.amount ∧ pyStrip e.description = e.description ∧ e.description ≠ "" := by
  unfold mkExpenseV at h
  by_cases h1 : a ≤ 0
  · rw [if_pos h1] at h
    exact absurd h (by simp)
  · rw [if_neg h1] at h
    cases hcv : pyStr cv with
    | error err =>
      simp only [hcv] at h
      exact absurd h (by simp)
    | ok c =>
      simp only [hcv] at h
      cases hdv : pyStr dv with
      | error err =>
        simp only [hdv] at h
        exact absurd h (by simp)
      | ok ds =>
        simp only [hdv] at h
        split_ifs at h with h2
        rw [Except.ok.injEq] at h
        subst h
        exact ⟨not_le.mp h1, pyStrip_idem ds, h2⟩

theorem from_dict_ok_props {d : Defaults} {item : RawItem} {e : Expense}
    (h : from_dict d item = .ok e) :
    0 < e.amount ∧ pyStrip e.description = e.description ∧ e.description ≠ "" := by
  cases item with
  | nonObj v => exact absurd h (by simp [from_dict])
  | obj rec =>
    obtain ⟨av, a, cv, dv, -, -, -, -, hmk⟩ := from_dict_ok_parts h
    exact mkExpenseV_ok_props hmk

theorem from_dict_to_dict_isOk (g : Defaults) {e : Expense} (h1 : 0 < e.amount)
    (h2 : pyStrip e.description = e.description) (h3 : e.description ≠ "") :
    (from_dict g (.obj e.to_dict)).isOk = true := by
  show (mkExpense e.amount e.category e.description e.date e.id e.created_at).isOk = true
  rw [mkExpense_isOk]
  push_neg
  refine ⟨h1, ?_⟩
  rw [h2]
  exact h3

theorem load_mem_props {gen : Nat → Defaults} {f : FileContent} {es : List Expense}
    {e : Expense} (hload : load_expenses gen f = .ok es) (he : e ∈ es) :
    0 < e.amount ∧ pyStrip e.description = e.description ∧ e.description ≠ "" := by
  cases hr : read_data f with
  | error err =>
    unfold load_expenses at hload
    simp only [hr] at hload
    exact absurd hload (by simp)
  | ok items =>
    unfold load_expenses at hload
    simp only [hr] at hload
    rw [loadFrom_ok_mem gen e items 0 es hload] at he
    obtain ⟨j, hj⟩ := he
    exact from_dict_ok_props hj

/-- C10: if `delete_expense` succeeds with `true`, the resulting file
consists solely of `to_dict` images of the validated in-memory snapshot, and
every such raw entry deserialises successfully (under any defaults);
consequently a raw entry that fails deserialization — skipped or fatal
during load — is no longer in the rewritten file, even though it was not the
deletion target. -/
theorem claim_C10_rewrite_drops_invalid :
    ∀ (gen : Nat → Defaults) (eid : String) (f f2 : FileContent),
      delete_expense gen eid f = .ok (true, f2) →
        (∀ r ∈ arrayItems f2, ∀ g : Defaults, (from_dict g r).isOk = true) ∧
        (∀ r ∈ arrayItems f, (∀ g : Defaults, (from_dict g r).isOk = false) →
          r ∉ arrayItems f2) := by
  intro gen eid f f2 hdel
  have hsplit : ∃ es, load_expenses gen f = .ok es ∧
      f2 = save_expenses (es.filter (fun e => e.id ≠ eid)) := by
    unfold delete_expense at hdel
    cases hload : load_expenses gen f with
    | error err =>
      simp only [hload] at hdel
      exact absurd hdel (by simp)
    | ok es =>
      simp only [hload] at hdel
      split_ifs at hdel with hc
      · rw [Except.ok.injEq, Prod.mk.injEq] at hdel
        exact ⟨es, rfl, hdel.2.symm⟩
      · rw [Except.ok.injEq, Prod.mk.injEq] at hdel
        exact absurd hdel.1 (by decide)
  obtain ⟨es, hload, rfl⟩ := hsplit
  have hall : ∀ r ∈ arrayItems (save_expenses (es.filter (fun e => e.id ≠ eid))),
      ∀ g : Defaults, (from_dict g r).isOk = true := by
    intro r hr g
    obtain ⟨e, he, rfl⟩ := List.mem_map.mp hr
    obtain ⟨h1, h2, h3⟩ := load_mem_props hload (List.mem_of_mem_filter he)
    exact from_dict_to_dict_isOk g h1 h2 h3
  refine ⟨hall, ?_⟩
  intro r hrf hbad hmem
  have htrue := hall r hmem d0
  rw [hbad d0] at htrue
  exact absurd htrue (by decide)

/-- Witness for C10 at concrete inputs: deleting the one valid record of a
file that also contains an invalid record empties the file, removing the
invalid entry as a side effect. -/
theorem claim_C10_rewrite_drops_invalid_witness :
    delete_expense gen0 "g1" (FileContent.array [.obj badRec, .obj goodRec]) =
        .ok (true, FileContent.array []) ∧
      RawItem.obj badRec ∈ arrayItems (FileContent.array [.obj badRec, .obj goodRec]) ∧
      (∀ g : Defaults, (from_dict g (.obj badRec)).isOk = false) ∧
      RawItem.obj badRec ∉ arrayItems (FileContent.array []) :=
  ⟨by decide, by decide, fun g => rfl,
    (claim_C10_rewrite_drops_invalid gen0 "g1"
      (FileContent.array [.obj badRec, .obj goodRec]) (FileContent.array [])
      (by decide)).2 (.obj badRec) (by decide) (fun g => rfl)⟩

end ExpenseTracker
